import Mathlib

/-!
Verification of the Abyss frontend core: the marker store (src/stores/ritual.ts),
the click hit-testing dispatch (src/components/AbyssCanvas.vue), the job
orchestration handlers (App.vue) and the transport layer (src/services/api.ts),
shallowly embedded in Lean.  JS numbers are modelled as rationals; THREE.Vector3
values as plain records of rationals; object identity, where it matters (the
clone-on-insert behaviour), as indices into an explicit heap.
-/

namespace Abyss

/-- Model of THREE.Vector3: a plain coordinate record over the rationals. -/
structure Vec3 where
  x : ℚ
  y : ℚ
  z : ℚ
deriving DecidableEq

/-- Store mode: which marker variant the next surface click creates
    (ritual.ts, mode ref). -/
inductive Mode where
  | fixed
  | load
deriving DecidableEq

/-! Decimal rendering of a natural number, the embedding of the template
    literal interpolation in genId (ritual.ts line 27). -/

/-- Decimal string of a natural number (most significant digit first),
    as produced by JS template interpolation of an integer. -/
def natToDecimal (n : Nat) : String :=
  if n = 0 then "0" else String.mk (((Nat.digits 10 n).reverse).map Nat.digitChar)

/-- Embeds genId from ritual.ts: the id issued when the counter reads n. -/
def genId (n : Nat) : String := "marker-" ++ natToDecimal n

theorem digitChar_inj {a b : Nat} (ha : a < 10) (hb : b < 10)
    (h : Nat.digitChar a = Nat.digitChar b) : a = b := by
  have key : ∀ x y : Fin 10, Nat.digitChar x.val = Nat.digitChar y.val → x = y := by decide
  have := key ⟨a, ha⟩ ⟨b, hb⟩ h
  exact congrArg Fin.val this

theorem map_digitChar_inj : ∀ (l1 l2 : List Nat), (∀ x ∈ l1, x < 10) → (∀ x ∈ l2, x < 10) →
    l1.map Nat.digitChar = l2.map Nat.digitChar → l1 = l2 := by
  intro l1
  induction l1 with
  | nil => intro l2 _ _ h; cases l2 <;> simp_all
  | cons a t ih =>
    intro l2 h1 h2 h
    cases l2 with
    | nil => simp at h
    | cons b t2 =>
      simp only [List.map_cons, List.cons.injEq] at h
      have ha : a < 10 := h1 a (by simp)
      have hb : b < 10 := h2 b (by simp)
      have hab := digitChar_inj ha hb h.1
      have ht := ih t2 (fun x hx => h1 x (by simp [hx])) (fun x hx => h2 x (by simp [hx])) h.2
      simp [hab, ht]

theorem natToDecimal_inj : Function.Injective natToDecimal := by
  intro a b h
  unfold natToDecimal at h
  by_cases ha : a = 0 <;> by_cases hb : b = 0
  · omega
  · exfalso
    simp only [ha, if_pos rfl, if_neg hb] at h
    have hdat : ("0" : String).data = (((Nat.digits 10 b).reverse).map Nat.digitChar) :=
      congrArg String.data h
    have hz : ("0" : String).data = ['0'] := rfl
    rw [hz] at hdat
    have hlen : 1 = ((Nat.digits 10 b).reverse).length := by
      have := congrArg List.length hdat
      simpa using this
    obtain ⟨d, hd⟩ : ∃ d, (Nat.digits 10 b).reverse = [d] := by
      cases hrev : (Nat.digits 10 b).reverse with
      | nil => rw [hrev] at hlen; simp at hlen
      | cons x t =>
        rw [hrev] at hlen
        simp at hlen
        exact ⟨x, by rw [hlen]⟩
    have hdig : Nat.digits 10 b = [d] := by
      have := congrArg List.reverse hd
      simpa using this
    have hd10 : d < 10 := Nat.digits_lt_base (by norm_num) (by rw [hdig]; simp)
    rw [hd, List.map_cons, List.map_nil] at hdat
    have hchar : ('0' : Char) = Nat.digitChar d := by
      simpa using hdat
    have hd0 : d = 0 := by
      have : Nat.digitChar 0 = Nat.digitChar d := by simpa using hchar
      exact (digitChar_inj (by norm_num) hd10 this).symm
    have hof : Nat.ofDigits 10 (Nat.digits 10 b) = b := Nat.ofDigits_digits 10 b
    rw [hdig, hd0] at hof
    simp [Nat.ofDigits] at hof
    exact hb hof.symm
  · exfalso
    simp only [hb, if_pos rfl, if_neg ha] at h
    have hdat : (((Nat.digits 10 a).reverse).map Nat.digitChar) = ("0" : String).data :=
      congrArg String.data h
    have hz : ("0" : String).data = ['0'] := rfl
    rw [hz] at hdat
    have hlen : ((Nat.digits 10 a).reverse).length = 1 := by
      have := congrArg List.length hdat
      simpa using this
    obtain ⟨d, hd⟩ : ∃ d, (Nat.digits 10 a).reverse = [d] := by
      cases hrev : (Nat.digits 10 a).reverse with
      | nil => rw [hrev] at hlen; simp at hlen
      | cons x t =>
        rw [hrev] at hlen
        simp at hlen
        exact ⟨x, by rw [hlen]⟩
    have hdig : Nat.digits 10 a = [d] := by
      have := congrArg List.reverse hd
      simpa using this
    have hd10 : d < 10 := Nat.digits_lt_base (by norm_num) (by rw [hdig]; simp)
    rw [hd, List.map_cons, List.map_nil] at hdat
    have hchar : Nat.digitChar d = ('0' : Char) := by
      simpa using hdat
    have hd0 : d = 0 := by
      have : Nat.digitChar d = Nat.digitChar 0 := by simpa using hchar
      exact digitChar_inj hd10 (by norm_num) this
    have hof : Nat.ofDigits 10 (Nat.digits 10 a) = a := Nat.ofDigits_digits 10 a
    rw [hdig, hd0] at hof
    simp [Nat.ofDigits] at hof
    exact ha hof.symm
  · simp only [if_neg ha, if_neg hb] at h
    have hdat : (((Nat.digits 10 a).reverse).map Nat.digitChar)
        = (((Nat.digits 10 b).reverse).map Nat.digitChar) := congrArg String.data h
    have hmap := map_digitChar_inj _ _
      (fun x hx => Nat.digits_lt_base (by norm_num) (by simpa using hx))
      (fun x hx => Nat.digits_lt_base (by norm_num) (by simpa using hx)) hdat
    have hrev : Nat.digits 10 a = Nat.digits 10 b := by
      have := congrArg List.reverse hmap
      simpa using this
    exact Nat.digits.injective 10 hrev

theorem genId_inj : Function.Injective genId := by
  intro a b h
  unfold genId at h
  have hdat := congrArg String.data h
  rw [String.data_append, String.data_append] at hdat
  have := List.append_cancel_left hdat
  exact natToDecimal_inj (String.ext this)

/-! The ritual store (src/stores/ritual.ts): marker lists, the module-level
    id counter, and the mutating operations. -/

/-- FixedSupport record (ritual.ts lines 5-9). -/
structure FixedSupport where
  id : String
  position : Vec3
  normal : Vec3
deriving DecidableEq

/-- LoadVector record (ritual.ts lines 11-16). -/
structure LoadVector where
  id : String
  position : Vec3
  direction : Vec3
  magnitude : ℚ
deriving DecidableEq

/-- State of the ritual store: the mode ref, the nextId counter and the two
    marker lists (ritual.ts lines 19-25). -/
structure RitualState where
  mode : Mode
  nextId : Nat
  fixedSupports : List FixedSupport
  loadVectors : List LoadVector
deriving DecidableEq

/-- Initial store state: mode starts as fixed, counter at 0, no markers. -/
def initialRitualState : RitualState := ⟨Mode.fixed, 0, [], []⟩

/-- Embeds setMode (ritual.ts lines 30-32). -/
def setMode (s : RitualState) (m : Mode) : RitualState := { s with mode := m }

/-- Embeds addFixedSupport (ritual.ts lines 34-38): issue an id from the
    counter, push the record, return the id.  The clone calls on the two
    vectors are value copies; the aliasing aspect is modelled separately in
    the heap model below. -/
def addFixedSupport (s : RitualState) (position normal : Vec3) : RitualState × String :=
  let id := genId s.nextId
  ({ s with nextId := s.nextId + 1,
            fixedSupports := s.fixedSupports ++ [⟨id, position, normal⟩] }, id)

/-- Embeds addLoadVector (ritual.ts lines 40-44); the TS default parameter
    magnitude = 1.0 becomes an Option argument defaulted with getD. -/
def addLoadVector (s : RitualState) (position direction : Vec3)
    (magnitude : Option ℚ) : RitualState × String :=
  let id := genId s.nextId
  ({ s with nextId := s.nextId + 1,
            loadVectors := s.loadVectors ++ [⟨id, position, direction, magnitude.getD 1⟩] }, id)

/-- Embeds removeMarker (ritual.ts lines 46-56): findIndex on fixedSupports
    first and splice out that single entry if found; otherwise the same on
    loadVectors; otherwise do nothing.  findIndex-then-splice is exactly
    List.eraseP on the first match. -/
def removeMarker (s : RitualState) (id : String) : RitualState :=
  if s.fixedSupports.any (fun m => m.id == id) then
    { s with fixedSupports := s.fixedSupports.eraseP (fun m => m.id == id) }
  else if s.loadVectors.any (fun l => l.id == id) then
    { s with loadVectors := s.loadVectors.eraseP (fun l => l.id == id) }
  else s

/-- Embeds clearAll (ritual.ts lines 58-61): empties both lists; nextId is
    untouched, so ids keep incrementing. -/
def clearAll (s : RitualState) : RitualState :=
  { s with fixedSupports := [], loadVectors := [] }

/-- All marker ids currently in the store, fixed supports first. -/
def markerIds (s : RitualState) : List String :=
  s.fixedSupports.map FixedSupport.id ++ s.loadVectors.map LoadVector.id

/-- Does the store hold a marker with this id (either variant)? -/
def hasMarker (s : RitualState) (id : String) : Bool :=
  s.fixedSupports.any (fun m => m.id == id) || s.loadVectors.any (fun l => l.id == id)

/-! Operation traces over the store, for the id-freshness claim. -/

/-- One mutating store call in a client trace. -/
inductive MarkerOp where
  | addFixed (position normal : Vec3)
  | addLoad (position direction : Vec3) (magnitude : Option ℚ)
  | remove (id : String)
  | clear
deriving DecidableEq

/-- Apply one operation; return the new state and the ids this call issued
    (one for an add, none otherwise). -/
def applyMarkerOp (s : RitualState) : MarkerOp → RitualState × List String
  | .addFixed p n => let r := addFixedSupport s p n; (r.1, [r.2])
  | .addLoad p d m => let r := addLoadVector s p d m; (r.1, [r.2])
  | .remove id => (removeMarker s id, [])
  | .clear => (clearAll s, [])

/-- Run a trace of operations, accumulating all issued ids in issuance order. -/
def runMarkerOps (s : RitualState) : List MarkerOp → RitualState × List String
  | [] => (s, [])
  | op :: ops =>
    let r := applyMarkerOp s op
    let rest := runMarkerOps r.1 ops
    (rest.1, r.2 ++ rest.2)

/-- Number of id-issuing (add) operations in a trace. -/
def addCount : List MarkerOp → Nat
  | [] => 0
  | .addFixed _ _ :: ops => addCount ops + 1
  | .addLoad _ _ _ :: ops => addCount ops + 1
  | .remove _ :: ops => addCount ops
  | .clear :: ops => addCount ops

theorem applyMarkerOp_nextId (s : RitualState) (op : MarkerOp) :
    (applyMarkerOp s op).1.nextId = s.nextId + addCount [op] := by
  cases op <;>
    simp only [applyMarkerOp, addFixedSupport, addLoadVector, removeMarker,
      clearAll, addCount] <;>
    first
      | rfl
      | (split
         · rfl
         · split
           · rfl
           · rfl)

theorem applyMarkerOp_issued (s : RitualState) (op : MarkerOp) :
    (applyMarkerOp s op).2 = (List.range' s.nextId (addCount [op])).map genId := by
  cases op <;> simp [applyMarkerOp, addFixedSupport, addLoadVector, addCount,
    List.range']

theorem runMarkerOps_issued (ops : List MarkerOp) : ∀ s : RitualState,
    (runMarkerOps s ops).2 = (List.range' s.nextId (addCount ops)).map genId := by
  induction ops with
  | nil => intro s; simp [runMarkerOps, addCount]
  | cons op ops ih =>
    intro s
    have hnext := applyMarkerOp_nextId s op
    have hiss := applyMarkerOp_issued s op
    have hone : addCount (op :: ops) = addCount ops + addCount [op] := by
      cases op <;> simp [addCount]
    simp only [runMarkerOps, hiss, ih, hnext, hone]
    rw [← List.map_append, List.range'_append_1]

/-! Heap model of the add operations, making THREE.Vector3 object identity
    explicit: vectors live in a heap (a list of cells, allocation appends a
    fresh cell), callers pass cell references, and the clone call in
    addFixedSupport and addLoadVector (ritual.ts lines 36 and 42) allocates a
    fresh cell holding the current value of the passed cell.  Later writes
    through the caller reference then cannot affect the stored marker. -/

/-- Read a heap cell (out-of-range reads yield the zero vector, which never
    happens for valid references). -/
def heapGet (h : List Vec3) (r : Nat) : Vec3 := h.getD r ⟨0, 0, 0⟩

/-- Overwrite a heap cell in place: the model of mutating an existing
    THREE.Vector3 object (for example with v.set). -/
def heapSet (h : List Vec3) (r : Nat) (v : Vec3) : List Vec3 := h.set r v

/-- Model of THREE.Vector3.prototype.clone: allocate a fresh cell holding the
    current value of cell r; return the new heap and the fresh reference. -/
def cloneRef (h : List Vec3) (r : Nat) : List Vec3 × Nat := (h ++ [heapGet h r], h.length)

/-- FixedSupport as stored in the heap model: vector fields are references. -/
structure FixedSupportRef where
  id : String
  position : Nat
  normal : Nat
deriving DecidableEq

/-- LoadVector as stored in the heap model: vector fields are references. -/
structure LoadVectorRef where
  id : String
  position : Nat
  direction : Nat
  magnitude : ℚ
deriving DecidableEq

/-- Store state in the heap model. -/
structure HeapState where
  heap : List Vec3
  nextId : Nat
  fixedSupports : List FixedSupportRef
  loadVectors : List LoadVectorRef
deriving DecidableEq

/-- addFixedSupport in the heap model: clone both caller vectors, then push a
    record holding the cloned references (ritual.ts lines 34-38). -/
def addFixedSupportRef (st : HeapState) (position normal : Nat) : HeapState × String :=
  let id := genId st.nextId
  let c1 := cloneRef st.heap position
  let c2 := cloneRef c1.1 normal
  ({ st with heap := c2.1, nextId := st.nextId + 1,
             fixedSupports := st.fixedSupports ++ [⟨id, c1.2, c2.2⟩] }, id)

/-- addLoadVector in the heap model (ritual.ts lines 40-44). -/
def addLoadVectorRef (st : HeapState) (position direction : Nat)
    (magnitude : Option ℚ) : HeapState × String :=
  let id := genId st.nextId
  let c1 := cloneRef st.heap position
  let c2 := cloneRef c1.1 direction
  ({ st with heap := c2.1, nextId := st.nextId + 1,
             loadVectors := st.loadVectors ++ [⟨id, c1.2, c2.2, magnitude.getD 1⟩] }, id)

theorem heapGet_append_of_lt (h t : List Vec3) (r : Nat) (hr : r < h.length) :
    heapGet (h ++ t) r = heapGet h r := by
  simp [heapGet, List.getD, List.getElem?_append_left hr]

theorem heapGet_set_of_ne (h : List Vec3) (r i : Nat) (v : Vec3) (hne : r ≠ i) :
    heapGet (heapSet h r v) i = heapGet h i := by
  simp [heapGet, heapSet, List.getD, List.getElem?_set_ne hne]

theorem heapGet_append_singleton (h : List Vec3) (v : Vec3) :
    heapGet (h ++ [v]) h.length = v := by
  simp [heapGet, List.getD, List.getElem?_append_right (Nat.le_refl h.length)]

/-! Hit-testing dispatch (AbyssCanvas.vue, onClick, lines 114-158).  The
    raycaster results are modelled as already-sorted intersection lists:
    markerHits against the children of markerGroup (the marker render
    handles), meshHits against the loaded base mesh.  For the first marker
    hit the source walks up to the direct markerGroup child and reads
    userData.markerId; resolvedId is the result of that walk (none when no
    id is attached, in which case the source falls through to the surface
    test).  transformDir stands for normal.transformDirection(matrixWorld),
    the world-space transform of the face normal. -/

/-- One raycaster intersection with a marker render handle. -/
structure MarkerHit where
  distance : ℚ
  resolvedId : Option String
deriving DecidableEq

/-- One raycaster intersection with the loaded base mesh. -/
structure MeshHit where
  distance : ℚ
  point : Vec3
  faceNormal : Vec3
deriving DecidableEq

/-- Observable outcome of one click. -/
inductive ClickOutcome where
  | removed (id : String)
  | placedFixed (position normal : Vec3)
  | placedLoad (position normal : Vec3)
  | missedSurface
  | noMesh
deriving DecidableEq

/-- Surface part of onClick (AbyssCanvas.vue lines 143-158): take the closest
    mesh intersection, transform its face normal to world space, and create
    the marker for the current mode (spawnTentacle calls addFixedSupport,
    spawnVoidEye calls addLoadVector with no magnitude argument). -/
def surfaceClick (meshHits : List MeshHit) (transformDir : Vec3 → Vec3)
    (s : RitualState) : RitualState × ClickOutcome :=
  match meshHits with
  | [] => (s, .missedSurface)
  | hit :: _ =>
    let position := hit.point
    let normal := transformDir hit.faceNormal
    match s.mode with
    | .fixed => ((addFixedSupport s position normal).1, .placedFixed position normal)
    | .load => ((addLoadVector s position normal none).1, .placedLoad position normal)

/-- onClick (AbyssCanvas.vue lines 114-158): nothing without a loaded mesh;
    otherwise marker intersections are examined first and, when the closest
    one resolves to a marker id, that marker is removed and the surface test
    never runs; only otherwise is the base mesh ray tested. -/
def onClick (hasMesh : Bool) (markerHits : List MarkerHit) (meshHits : List MeshHit)
    (transformDir : Vec3 → Vec3) (s : RitualState) : RitualState × ClickOutcome :=
  if !hasMesh then (s, .noMesh)
  else
    match markerHits with
    | mh :: _ =>
      match mh.resolvedId with
      | some id => (removeMarker s id, .removed id)
      | none => surfaceClick meshHits transformDir s
    | [] => surfaceClick meshHits transformDir s

/-- Did this outcome come from the surface test (a placement or a miss)? -/
def isSurfaceOutcome : ClickOutcome → Bool
  | .placedFixed _ _ => true
  | .placedLoad _ _ => true
  | .missedSurface => true
  | _ => false

/-! The job orchestrator (App.vue: canRun, onRunOptimization,
    onCancelOptimization) and the transport contract (src/services/api.ts).
    Each network callback becomes a pure state-transition function; the
    network calls a step issues are returned alongside the new state so that
    the no-network-call properties are expressible. -/

/-- Progress snapshot as stored on the job (App.vue lines 98-105, camelCase). -/
structure ProgressSnapshot where
  iteration : ℚ
  maxIterations : ℚ
  objective : ℚ
  volumeFraction : ℚ
  change : ℚ
  elapsedSeconds : ℚ
deriving DecidableEq

/-- Wire-format progress record (api.ts ProgressData, snake_case fields). -/
structure ProgressData where
  iteration : ℚ
  max_iterations : ℚ
  objective : ℚ
  volume_fraction : ℚ
  change : ℚ
  elapsed_seconds : ℚ
deriving DecidableEq

/-- Modelled from the spec: the optimization sub-record of the ritual store is
    not among the provided sources (only its uses in App.vue are), so its
    fields are reconstructed from the OptimizationJob data model of the spec
    and from every access App.vue performs: isRunning, isComplete, jobId,
    progress and error. -/
structure OptimizationState where
  isRunning : Bool
  isComplete : Bool
  jobId : Option String
  progress : Option ProgressSnapshot
  error : Option String
deriving DecidableEq

/-- Modelled from the spec: resetOptimization clears the job id, progress and
    error and returns the job to the idle flags. -/
def resetOptimization : OptimizationState :=
  ⟨false, false, none, none, none⟩

/-- Solver parameters (spec SolverConfig; read in App.vue lines 83-88). -/
structure SolverParams where
  nelx : Nat
  nely : Nat
  nelz : Nat
  penal : ℚ
  rmin : ℚ
  maxIterations : Nat
deriving DecidableEq

/-- The state visible to the App.vue handlers: the store fields they read
    and write, plus the module-level stopStream handle (App.vue line 16),
    modelled as the fact of an open subscription. -/
structure AppState where
  optimization : OptimizationState
  stlArrayBuffer : Option (List Nat)
  fixedSupports : List FixedSupport
  loadVectors : List LoadVector
  volumeFraction : ℚ
  solverParams : SolverParams
  streamOpen : Bool
deriving DecidableEq

/-- Embeds canRun (App.vue lines 19-24): mesh bytes present, at least one
    fixed support, at least one load vector, and no job in flight. -/
def canRun (s : AppState) : Bool :=
  s.stlArrayBuffer.isSome
    && decide (0 < s.fixedSupports.length)
    && decide (0 < s.loadVectors.length)
    && !s.optimization.isRunning

/-! Minimal JSON model for the wire format of the submit call. -/

/-- JSON values (numbers stand for JS numbers, as rationals). -/
inductive Json where
  | str (s : String)
  | num (q : ℚ)
  | arr (elems : List Json)
  | obj (fields : List (String × Json))

/-- Top-level keys of a JSON object, in order. -/
def Json.keys : Json → List String
  | .obj fields => fields.map Prod.fst
  | _ => []

/-- Value under a top-level key of a JSON object. -/
def Json.lookupKey : Json → String → Option Json
  | .obj fields, k => fields.lookup k
  | _, _ => none

mutual
/-- JSON.stringify over the model (string escaping beyond quoting is not
    needed for the payloads this program produces). -/
def Json.stringify : Json → String
  | .str s => "\"" ++ s ++ "\""
  | .num q => toString q
  | .arr elems => "[" ++ Json.stringifyElems elems ++ "]"
  | .obj fields => "\x7b" ++ Json.stringifyFields fields ++ "\x7d"

/-- Comma-separated serialization of array elements. -/
def Json.stringifyElems : List Json → String
  | [] => ""
  | [j] => Json.stringify j
  | j :: js => Json.stringify j ++ "," ++ Json.stringifyElems js

/-- Comma-separated serialization of object fields. -/
def Json.stringifyFields : List (String × Json) → String
  | [] => ""
  | [(k, j)] => "\"" ++ k ++ "\":" ++ Json.stringify j
  | (k, j) :: fs => "\"" ++ k ++ "\":" ++ Json.stringify j ++ "," ++ Json.stringifyFields fs
end

/-- Serialization of a vector as the object with keys x, y, z
    (App.vue lines 74-75 and 78-79). -/
def jsonVec3 (v : Vec3) : Json :=
  .obj [("x", .num v.x), ("y", .num v.y), ("z", .num v.z)]

/-- One fixed_supports entry (App.vue lines 73-76). -/
def fixedSupportJson (m : FixedSupport) : Json :=
  .obj [("position", jsonVec3 m.position), ("normal", jsonVec3 m.normal)]

/-- One load_vectors entry (App.vue lines 77-81). -/
def loadVectorJson (l : LoadVector) : Json :=
  .obj [("position", jsonVec3 l.position), ("direction", jsonVec3 l.direction),
        ("magnitude", .num l.magnitude)]

/-- The params object built in onRunOptimization (App.vue lines 72-89). -/
def buildParams (s : AppState) : Json :=
  .obj [("fixed_supports", .arr (s.fixedSupports.map fixedSupportJson)),
        ("load_vectors", .arr (s.loadVectors.map loadVectorJson)),
        ("volume_fraction", .num s.volumeFraction),
        ("nelx", .num s.solverParams.nelx),
        ("nely", .num s.solverParams.nely),
        ("nelz", .num s.solverParams.nelz),
        ("penal", .num s.solverParams.penal),
        ("rmin", .num s.solverParams.rmin),
        ("max_iterations", .num s.solverParams.maxIterations)]

/-- A network operation issued by an orchestrator step. -/
inductive NetCall where
  | submit (stl : List Nat) (params : Json)
  | stream (jobId : String)
  | fetchRes (jobId : String)

/-- Value of a multipart form field (api.ts submitOptimization). -/
inductive FormValue where
  | file (bytes : List Nat) (filename : String)
  | text (s : String)

/-- Embeds submitOptimization (api.ts lines 16-27): the multipart form sent
    to POST /api/optimize, in field order: stl_file carrying the raw mesh
    bytes under filename model.stl, then params as a JSON string. -/
def submitOptimizationForm (stlBuffer : List Nat) (params : Json) :
    List (String × FormValue) :=
  [("stl_file", .file stlBuffer "model.stl"),
   ("params", .text (Json.stringify params))]

/-- The synchronous prefix of onRunOptimization (App.vue lines 66-92): the
    guard returns silently unless canRun holds and mesh bytes are present;
    otherwise the job record is reset, isRunning is set, and the submit call
    goes out with the current mesh bytes and params. -/
def onRunOptimizationStart (s : AppState) : AppState × List NetCall :=
  if !canRun s || s.stlArrayBuffer.isNone then (s, [])
  else
    let opt := { resetOptimization with isRunning := true }
    ({ s with optimization := opt },
     [.submit (s.stlArrayBuffer.getD []) (buildParams s)])

/-- Continuation of onRunOptimization after a successful submit (App.vue
    lines 92-95): record the job id and open the progress subscription. -/
def onSubmitOk (s : AppState) (jobId : String) : AppState × List NetCall :=
  ({ s with optimization := { s.optimization with jobId := some jobId },
            streamOpen := true }, [.stream jobId])

/-- Catch branch of onRunOptimization (App.vue lines 123-126): submit failed. -/
def onSubmitErr (s : AppState) (msg : String) : AppState :=
  { s with optimization := { s.optimization with isRunning := false, error := some msg } }

/-- Progress callback (App.vue lines 97-106): replace the snapshot. -/
def onProgressCb (s : AppState) (d : ProgressData) : AppState :=
  let snap : ProgressSnapshot :=
    ⟨d.iteration, d.max_iterations, d.objective, d.volume_fraction,
     d.change, d.elapsed_seconds⟩
  { s with optimization := { s.optimization with progress := some snap } }

/-- Completion callback (App.vue lines 107-110): mark the run finished and
    complete, then issue the result fetch for the closed-over job id. -/
def onCompleteCb (s : AppState) (jobId : String) : AppState × List NetCall :=
  ({ s with optimization :=
      { s.optimization with isRunning := false, isComplete := true } },
   [.fetchRes jobId])

/-- Successful result fetch (App.vue lines 112-113): the bytes go to the
    rendering collaborator; the job record is not touched. -/
def onFetchOkCb (s : AppState) : AppState := s

/-- Failed result fetch (App.vue lines 114-116). -/
def onFetchErrCb (s : AppState) : AppState :=
  { s with optimization :=
      { s.optimization with error := some "Failed to fetch result" } }

/-- Stream error callback (App.vue lines 118-121). -/
def onStreamErrCb (s : AppState) (msg : String) : AppState :=
  { s with optimization := { s.optimization with isRunning := false, error := some msg } }

/-- Embeds onCancelOptimization (App.vue lines 129-136): close the stream
    handle when one is held, then unconditionally clear isRunning and set
    the error notice to Cancelled. -/
def onCancelOptimization (s : AppState) : AppState :=
  let s1 := if s.streamOpen then { s with streamOpen := false } else s
  { s1 with optimization :=
      { s1.optimization with isRunning := false, error := some "Cancelled" } }

/-! The progress stream (api.ts streamProgress, lines 29-57): the EventSource
    handlers as pure functions from an incoming event to the ordered list of
    actions they perform, so that close-before-callback is expressible. -/

/-- Parsed payload of one stream message: the optional status and message
    fields the terminal branches inspect, and the progress fields the
    non-terminal branch forwards. -/
structure RawMsg where
  status : Option String
  message : Option String
  progressData : ProgressData
deriving DecidableEq

/-- One primitive action performed by a stream handler, in order. -/
inductive StreamAction where
  | closeSource
  | completeCb
  | errorCb (msg : String)
  | progressCb (d : ProgressData)
deriving DecidableEq

/-- JS short-circuit data.message or fallback: undefined and the empty string
    are falsy. -/
def jsOrElse (o : Option String) (dflt : String) : String :=
  match o with
  | some s => if s = "" then dflt else s
  | none => dflt

/-- Embeds the es.onmessage handler (api.ts lines 37-48). -/
def esOnMessage (m : RawMsg) : List StreamAction :=
  if m.status = some "complete" then [.closeSource, .completeCb]
  else if m.status = some "error" then
    [.closeSource, .errorCb (jsOrElse m.message "Unknown error")]
  else [.progressCb m.progressData]

/-- Embeds the es.onerror handler (api.ts lines 50-53). -/
def esOnError : List StreamAction := [.closeSource, .errorCb "Connection lost"]

/-! Concrete states used by witnesses and counterexamples. -/

/-- A zero progress record. -/
def pd0 : ProgressData := ⟨0, 0, 0, 0, 0, 0⟩

/-- A concrete solver configuration. -/
def sp0 : SolverParams := ⟨30, 30, 30, 3, 2, 80⟩

/-- A fresh app state: no mesh loaded, no markers, idle job. -/
def freshAppState : AppState := ⟨resetOptimization, none, [], [], 0, sp0, false⟩

/-- A concrete fixed support. -/
def fs0 : FixedSupport := ⟨"a", ⟨0, 0, 0⟩, ⟨0, 0, 1⟩⟩

/-- A concrete load vector. -/
def lv0 : LoadVector := ⟨"b", ⟨1, 0, 0⟩, ⟨0, 1, 0⟩, 1⟩

/-- An app state mid-run: mesh loaded, one marker of each kind, job running
    with an open stream. -/
def runningAppState : AppState :=
  ⟨⟨true, false, some "j1", none, none⟩, some [1, 2], [fs0], [lv0], 0, sp0, true⟩

/-- A valid-submission app state: mesh loaded, one marker of each kind, idle. -/
def readyAppState : AppState :=
  ⟨resetOptimization, some [1, 2], [fs0], [lv0], 0, sp0, false⟩

/-! Claim theorems. -/

/-- C1 counterexample: on a run request with no mesh bytes (and no markers),
    the submit operation performs no network call but does NOT set the job
    state to Error: the handler returns silently and the error field stays
    none, contradicting the claim that a descriptive Error is recorded. -/
theorem C1_counterexample :
    onRunOptimizationStart freshAppState = (freshAppState, [])
    ∧ (onRunOptimizationStart freshAppState).1.optimization.error = none
    ∧ freshAppState.stlArrayBuffer = none := by
  refine ⟨rfl, rfl, rfl⟩

/-- C1 (amended): whenever canRun is false — mesh bytes absent, zero fixed
    supports, zero load vectors, or a job already in flight — the run
    handler performs no network call and leaves the whole state unchanged
    (a silent no-op; no Error is recorded). -/
theorem C1_invalid_run_is_silent_noop (s : AppState) (h : canRun s = false) :
    onRunOptimizationStart s = (s, []) := by
  simp [onRunOptimizationStart, h]

/-- C1 witness: the amended theorem applied at the fresh state. -/
theorem C1_witness :
    canRun freshAppState = false
    ∧ onRunOptimizationStart freshAppState = (freshAppState, []) :=
  ⟨rfl, C1_invalid_run_is_silent_noop freshAppState rfl⟩

/-- C2 counterexample: from a running job, a terminal complete event followed
    by a failed result fetch leaves isComplete = true — the job is still
    flagged Complete (the completion flag set before the fetch is never
    reverted), contradicting the claim that the job is not in the Complete
    state. -/
theorem C2_counterexample :
    (onFetchErrCb (onCompleteCb runningAppState "j1").1).optimization.isComplete = true
    ∧ (onFetchErrCb (onCompleteCb runningAppState "j1").1).optimization.error
        = some "Failed to fetch result" := by
  refine ⟨rfl, rfl⟩

/-- C2 (amended): when the stream delivers a terminal complete event and the
    subsequent result fetch fails, the job ends with error message exactly
    "Failed to fetch result" and isRunning false; however the isComplete
    flag, set when the stream closed, remains true — the error state does
    not exclude the completion flag.  The complete event issues exactly the
    one result-fetch call for the closed-over job id. -/
theorem C2_fetch_failure_sets_error (s : AppState) (jobId : String) :
    (onFetchErrCb (onCompleteCb s jobId).1).optimization.error
        = some "Failed to fetch result"
    ∧ (onFetchErrCb (onCompleteCb s jobId).1).optimization.isRunning = false
    ∧ (onFetchErrCb (onCompleteCb s jobId).1).optimization.isComplete = true
    ∧ (onCompleteCb s jobId).2 = [NetCall.fetchRes jobId] := by
  refine ⟨rfl, rfl, rfl, rfl⟩

/-- C3 counterexample: cancelling when no job is active is not a no-op — the
    handler unconditionally writes the Cancelled notice into the error
    field, so the state changes. -/
theorem C3_counterexample :
    freshAppState.optimization.error = none
    ∧ (onCancelOptimization freshAppState).optimization.error = some "Cancelled"
    ∧ onCancelOptimization freshAppState ≠ freshAppState := by
  refine ⟨rfl, rfl, ?_⟩
  intro h
  have h2 := congrArg (fun s => s.optimization.error) h
  exact Option.noConfusion (show (some "Cancelled" : Option String) = none from h2)

/-- C3 (amended): cancel closes any open subscription, clears isRunning and
    sets the error field to the Cancelled notice, from every state — also
    when no job is active, so cancelling while idle is not a no-op (it still
    records the notice); repeating cancel is idempotent in the functional
    sense (the second call changes nothing further). -/
theorem C3_cancel_behaviour (s : AppState) :
    (onCancelOptimization s).streamOpen = false
    ∧ (onCancelOptimization s).optimization.isRunning = false
    ∧ (onCancelOptimization s).optimization.error = some "Cancelled"
    ∧ onCancelOptimization (onCancelOptimization s) = onCancelOptimization s := by
  by_cases h : s.streamOpen <;> simp [onCancelOptimization, h]

/-- C4: when the click ray hits marker render handles, the closest marker hit
    (the head of the raycaster's sorted intersection list) resolves to its
    marker id and that marker is removed, for every list of surface
    intersections — including ones strictly closer to the camera; and the
    surface test runs only when the marker intersection list is empty
    (whenever every marker hit carries an id, a surface outcome forces an
    empty marker-hit list). -/
theorem C4_marker_priority (s : RitualState) (mh : MarkerHit) (rest : List MarkerHit)
    (meshHits : List MeshHit) (td : Vec3 → Vec3) (id : String)
    (hid : mh.resolvedId = some id) :
    onClick true (mh :: rest) meshHits td s = (removeMarker s id, ClickOutcome.removed id)
    ∧ ∀ mhs : List MarkerHit, (∀ h ∈ mhs, h.resolvedId.isSome = true) →
        isSurfaceOutcome (onClick true mhs meshHits td s).2 = true → mhs = [] := by
  constructor
  · simp [onClick, hid]
  · intro mhs hall hsurf
    cases mhs with
    | nil => rfl
    | cons m t =>
      exfalso
      have hm := hall m (by simp)
      cases hmr : m.resolvedId with
      | none => rw [hmr] at hm; simp at hm
      | some i => rw [onClick] at hsurf; simp [hmr, isSurfaceOutcome] at hsurf

/-- C4 witness: a scene with one existing marker whose render handle is hit
    at distance 5 while the base surface is hit at distance 1 (closer):
    the click still removes the marker. -/
theorem C4_witness :
    (⟨5, some "a"⟩ : MarkerHit).resolvedId = some "a"
    ∧ onClick true [⟨5, some "a"⟩] [⟨1, ⟨0, 0, 0⟩, ⟨0, 0, 1⟩⟩] (fun v => v)
        ⟨Mode.fixed, 1, [fs0], []⟩
      = (removeMarker ⟨Mode.fixed, 1, [fs0], []⟩ "a", ClickOutcome.removed "a") :=
  ⟨rfl, (C4_marker_priority ⟨Mode.fixed, 1, [fs0], []⟩ ⟨5, some "a"⟩ []
      [⟨1, ⟨0, 0, 0⟩, ⟨0, 0, 1⟩⟩] (fun v => v) "a" rfl).1⟩

/-- C10: a surface click handled in load mode creates a LoadVector whose
    direction is exactly the world-space transform of the clicked face
    normal and whose magnitude is the default 1 — spawnVoidEye passes only
    position and normal to addLoadVector, so no direction or magnitude is
    supplied through the click interface. -/
theorem C10_load_click_direction (s : RitualState) (h : s.mode = Mode.load)
    (hit : MeshHit) (rest : List MeshHit) (td : Vec3 → Vec3) :
    onClick true [] (hit :: rest) td s
      = ((addLoadVector s hit.point (td hit.faceNormal) none).1,
         ClickOutcome.placedLoad hit.point (td hit.faceNormal))
    ∧ (addLoadVector s hit.point (td hit.faceNormal) none).1.loadVectors
      = s.loadVectors ++ [⟨genId s.nextId, hit.point, td hit.faceNormal, 1⟩] := by
  constructor
  · simp [onClick, surfaceClick, h]
  · simp [addLoadVector]

/-- C10 witness: the theorem applied at a concrete load-mode state and hit. -/
theorem C10_witness :
    (⟨Mode.load, 0, [], []⟩ : RitualState).mode = Mode.load
    ∧ (addLoadVector ⟨Mode.load, 0, [], []⟩ (⟨0, 0, 0⟩ : Vec3) (⟨0, 0, 1⟩ : Vec3)
        none).1.loadVectors
      = [⟨genId 0, ⟨0, 0, 0⟩, ⟨0, 0, 1⟩, 1⟩] :=
  ⟨rfl, (C10_load_click_direction ⟨Mode.load, 0, [], []⟩ rfl ⟨1, ⟨0, 0, 0⟩, ⟨0, 0, 1⟩⟩
      [] (fun v => v)).2⟩

/-- C6: on each terminal stream event the handler closes the EventSource
    before invoking the corresponding callback (the close action is the head
    of the action trace, the callback follows), and a transport-level
    connection error is reported as a terminal failure with message exactly
    "Connection lost". -/
theorem C6_close_before_callback (m : RawMsg) :
    (m.status = some "complete" →
        esOnMessage m = [StreamAction.closeSource, StreamAction.completeCb])
    ∧ (m.status = some "error" →
        esOnMessage m
          = [StreamAction.closeSource,
             StreamAction.errorCb (jsOrElse m.message "Unknown error")])
    ∧ ((m.status = some "complete" ∨ m.status = some "error") →
        (esOnMessage m).head? = some StreamAction.closeSource)
    ∧ esOnError = [StreamAction.closeSource, StreamAction.errorCb "Connection lost"] := by
  refine ⟨?_, ?_, ?_, rfl⟩
  · intro h; simp [esOnMessage, h]
  · intro h; simp [esOnMessage, h]
  · rintro (h | h) <;> simp [esOnMessage, h]

/-- C6 witness: the theorem applied at a concrete terminal complete message. -/
theorem C6_witness :
    (⟨some "complete", none, pd0⟩ : RawMsg).status = some "complete"
    ∧ esOnMessage ⟨some "complete", none, pd0⟩
      = [StreamAction.closeSource, StreamAction.completeCb] :=
  ⟨rfl, (C6_close_before_callback ⟨some "complete", none, pd0⟩).1 rfl⟩

/-- C5: over every sequence of store operations — adds of either kind
    interleaved with removeMarker and clearAll — starting from the initial
    store, the issued ids are exactly the decimal renderings of the
    consecutive counter values 0, 1, 2, ... (so they are strictly increasing
    in issuance order, across both variants), and the full issuance trace
    has no duplicates: an id is never reused, also after removals or
    clearAll, because neither resets the counter. -/
theorem C5_ids_fresh_and_increasing (ops : List MarkerOp) :
    (runMarkerOps initialRitualState ops).2
      = (List.range' 0 (addCount ops)).map genId
    ∧ ((runMarkerOps initialRitualState ops).2).Nodup := by
  have h := runMarkerOps_issued ops initialRitualState
  refine ⟨h, ?_⟩
  rw [h]
  exact (List.nodup_range' 0 (addCount ops)).map genId_inj

/-- C7: a valid submission issues exactly one submit network call carrying
    the current mesh bytes and the params object; the multipart form binds
    stl_file to those raw bytes under filename model.stl and params to the
    JSON serialization of the params object; and that object has exactly the
    nine wire keys, with per-marker entries of shape position/normal
    respectively position/direction/magnitude, all taken from the current
    markers and solver configuration. -/
theorem C7_submit_wire_format (s : AppState) (h : canRun s = true) :
    (onRunOptimizationStart s).2
      = [NetCall.submit (s.stlArrayBuffer.getD []) (buildParams s)]
    ∧ submitOptimizationForm (s.stlArrayBuffer.getD []) (buildParams s)
      = [("stl_file", FormValue.file (s.stlArrayBuffer.getD []) "model.stl"),
         ("params", FormValue.text (Json.stringify (buildParams s)))]
    ∧ Json.keys (buildParams s)
      = ["fixed_supports", "load_vectors", "volume_fraction", "nelx", "nely",
         "nelz", "penal", "rmin", "max_iterations"]
    ∧ Json.lookupKey (buildParams s) "fixed_supports"
      = some (.arr (s.fixedSupports.map fixedSupportJson))
    ∧ Json.lookupKey (buildParams s) "load_vectors"
      = some (.arr (s.loadVectors.map loadVectorJson))
    ∧ Json.lookupKey (buildParams s) "volume_fraction" = some (.num s.volumeFraction)
    ∧ Json.lookupKey (buildParams s) "nelx" = some (.num s.solverParams.nelx)
    ∧ Json.lookupKey (buildParams s) "nely" = some (.num s.solverParams.nely)
    ∧ Json.lookupKey (buildParams s) "nelz" = some (.num s.solverParams.nelz)
    ∧ Json.lookupKey (buildParams s) "penal" = some (.num s.solverParams.penal)
    ∧ Json.lookupKey (buildParams s) "rmin" = some (.num s.solverParams.rmin)
    ∧ Json.lookupKey (buildParams s) "max_iterations"
      = some (.num s.solverParams.maxIterations)
    ∧ (∀ m : FixedSupport, Json.keys (fixedSupportJson m) = ["position", "normal"]
        ∧ Json.lookupKey (fixedSupportJson m) "position" = some (jsonVec3 m.position)
        ∧ Json.lookupKey (fixedSupportJson m) "normal" = some (jsonVec3 m.normal))
    ∧ (∀ l : LoadVector,
        Json.keys (loadVectorJson l) = ["position", "direction", "magnitude"]
        ∧ Json.lookupKey (loadVectorJson l) "position" = some (jsonVec3 l.position)
        ∧ Json.lookupKey (loadVectorJson l) "direction" = some (jsonVec3 l.direction)
        ∧ Json.lookupKey (loadVectorJson l) "magnitude" = some (.num l.magnitude)) := by
  have hsome : s.stlArrayBuffer.isNone = false := by
    cases hs : s.stlArrayBuffer with
    | none => rw [canRun, hs] at h; simp at h
    | some b => simp [hs]
  refine ⟨?_, rfl, rfl, rfl, rfl, rfl, rfl, rfl, rfl, rfl, rfl, rfl,
    fun m => ⟨rfl, rfl, rfl⟩, fun l => ⟨rfl, rfl, rfl, rfl⟩⟩
  simp [onRunOptimizationStart, h, hsome]

/-- C7 witness: the theorem applied at a concrete ready-to-run state. -/
theorem C7_witness :
    canRun readyAppState = true
    ∧ (onRunOptimizationStart readyAppState).2
      = [NetCall.submit (readyAppState.stlArrayBuffer.getD [])
          (buildParams readyAppState)] :=
  ⟨rfl, (C7_submit_wire_format readyAppState rfl).1⟩

/-! Helper lemmas about eraseP under an at-most-one-match discipline,
    used for the removeMarker claim. -/

theorem countP_le_one_of_nodup_map {α : Type} (f : α → String) (l : List α)
    (h : (l.map f).Nodup) (id : String) :
    l.countP (fun x => f x == id) ≤ 1 := by
  induction l with
  | nil => simp
  | cons a t ih =>
    simp only [List.map_cons, List.nodup_cons] at h
    by_cases hb : f a = id
    · have hz : t.countP (fun x => f x == id) = 0 := by
        rw [List.countP_eq_zero]
        intro x hx
        simp only [beq_iff_eq]
        intro hfx
        have hmem : id ∈ List.map f t := by
          rw [← hfx]
          exact List.mem_map_of_mem f hx
        exact h.1 (by rw [hb]; exact hmem)
      rw [List.countP_cons]
      simp [hb, hz]
    · rw [List.countP_cons]
      simp only [beq_iff_eq, hb]
      simpa using ih h.2

theorem any_eraseP_eq_false {α : Type} (p : α → Bool) (l : List α)
    (h : l.countP p ≤ 1) : (l.eraseP p).any p = false := by
  induction l with
  | nil => simp
  | cons a t ih =>
    by_cases hp : p a = true
    · rw [List.eraseP_cons_of_pos hp]
      rw [List.any_eq_false]
      intro x hx
      have hc : t.countP p = 0 := by
        rw [List.countP_cons_of_pos p t hp] at h
        omega
      rw [List.countP_eq_zero] at hc
      exact hc x hx
    · rw [List.eraseP_cons_of_neg (by simp [hp])]
      rw [List.any_cons]
      have ht : (t.eraseP p).any p = false := by
        apply ih
        rw [List.countP_cons_of_neg p t hp] at h
        exact h
      simp [hp, ht]

/-- C8: removeMarker is total (it is a function, every input yields a state)
    and, under the id-uniqueness invariant the store maintains: removing an
    unknown id changes nothing; a repeated removal is a no-op (idempotence);
    and when the id is present, exactly that one marker disappears — the
    combined marker count drops by one, the id is gone, and every marker
    with a different id is preserved, with nothing new introduced. -/
theorem C8_removeMarker_idempotent (s : RitualState) (id : String)
    (huniq : (markerIds s).Nodup) :
    (hasMarker s id = false → removeMarker s id = s)
    ∧ removeMarker (removeMarker s id) id = removeMarker s id
    ∧ (hasMarker s id = true →
        (markerIds (removeMarker s id)).length + 1 = (markerIds s).length
        ∧ hasMarker (removeMarker s id) id = false
        ∧ (∀ m ∈ (removeMarker s id).fixedSupports, m ∈ s.fixedSupports)
        ∧ (∀ l ∈ (removeMarker s id).loadVectors, l ∈ s.loadVectors)
        ∧ (∀ m ∈ s.fixedSupports, m.id ≠ id → m ∈ (removeMarker s id).fixedSupports)
        ∧ (∀ l ∈ s.loadVectors, l.id ≠ id → l ∈ (removeMarker s id).loadVectors)) := by
  have hnodup := huniq
  rw [markerIds, List.nodup_append] at hnodup
  obtain ⟨hnf, hnl, hdisj⟩ := hnodup
  have hcf : s.fixedSupports.countP (fun m => m.id == id) ≤ 1 :=
    countP_le_one_of_nodup_map FixedSupport.id s.fixedSupports hnf id
  have hcl : s.loadVectors.countP (fun l => l.id == id) ≤ 1 :=
    countP_le_one_of_nodup_map LoadVector.id s.loadVectors hnl id
  refine ⟨?_, ?_, ?_⟩
  · intro h
    rw [hasMarker, Bool.or_eq_false_iff] at h
    rw [removeMarker, h.1, h.2]
    simp
  · by_cases hf : s.fixedSupports.any (fun m => m.id == id) = true
    · have hstep : removeMarker s id
          = { s with fixedSupports := s.fixedSupports.eraseP (fun m => m.id == id) } := by
        rw [removeMarker, hf]
        simp
      have hf2 : ((s.fixedSupports.eraseP (fun m => m.id == id)).any
          (fun m => m.id == id)) = false :=
        any_eraseP_eq_false _ _ hcf
      have hl2 : s.loadVectors.any (fun l => l.id == id) = false := by
        rw [List.any_eq_false]
        intro x hx
        simp only [beq_iff_eq]
        intro hxid
        rw [List.any_eq_true] at hf
        obtain ⟨a, ha, haid⟩ := hf
        rw [beq_iff_eq] at haid
        exact hdisj (List.mem_map_of_mem FixedSupport.id ha)
          (by rw [haid, ← hxid]; exact List.mem_map_of_mem LoadVector.id hx)
      rw [hstep, removeMarker]
      simp only [hf2, hl2]
      simp
    · by_cases hl : s.loadVectors.any (fun l => l.id == id) = true
      · have hstep : removeMarker s id
            = { s with loadVectors := s.loadVectors.eraseP (fun l => l.id == id) } := by
          rw [removeMarker, hl]
          simp [hf]
        have hl2 : ((s.loadVectors.eraseP (fun l => l.id == id)).any
            (fun l => l.id == id)) = false :=
          any_eraseP_eq_false _ _ hcl
        have hf2 : s.fixedSupports.any (fun m => m.id == id) = false := by
          simpa using hf
        rw [hstep, removeMarker]
        simp only [hf2, hl2]
        simp
      · have hid : removeMarker s id = s := by
          rw [removeMarker]
          simp [hf, hl]
        rw [hid, hid]
  · intro h
    rw [hasMarker, Bool.or_eq_true] at h
    by_cases hf : s.fixedSupports.any (fun m => m.id == id) = true
    · have hstep : removeMarker s id
          = { s with fixedSupports := s.fixedSupports.eraseP (fun m => m.id == id) } := by
        rw [removeMarker, hf]
        simp
      rw [List.any_eq_true] at hf
      obtain ⟨a, ha, haid⟩ := hf
      have hlen : (s.fixedSupports.eraseP (fun m => m.id == id)).length
          = s.fixedSupports.length - 1 := List.length_eraseP_of_mem ha haid
      have hpos : 0 < s.fixedSupports.length := List.length_pos_of_mem ha
      have hf2 : ((s.fixedSupports.eraseP (fun m => m.id == id)).any
          (fun m => m.id == id)) = false :=
        any_eraseP_eq_false _ _ hcf
      have hl2 : s.loadVectors.any (fun l => l.id == id) = false := by
        rw [List.any_eq_false]
        intro x hx
        simp only [beq_iff_eq]
        intro hxid
        rw [beq_iff_eq] at haid
        exact hdisj (List.mem_map_of_mem FixedSupport.id ha)
          (by rw [haid, ← hxid]; exact List.mem_map_of_mem LoadVector.id hx)
      refine ⟨?_, ?_, ?_, ?_, ?_, ?_⟩
      · rw [hstep, markerIds, markerIds]
        simp only [List.length_append, List.length_map, hlen]
        omega
      · rw [hstep, hasMarker]
        simp only [hf2, hl2]
        simp
      · intro m hm
        rw [hstep] at hm
        exact (List.eraseP_sublist _).mem hm
      · intro l hlmem
        rw [hstep] at hlmem
        exact hlmem
      · intro m hm hne
        rw [hstep]
        simp only []
        rw [List.mem_eraseP_of_neg (by simp [hne])]
        exact hm
      · intro l hlmem _
        rw [hstep]
        exact hlmem
    · have hl : s.loadVectors.any (fun l => l.id == id) = true := by
        rcases h with h1 | h1
        · exact absurd h1 hf
        · exact h1
      have hstep : removeMarker s id
          = { s with loadVectors := s.loadVectors.eraseP (fun l => l.id == id) } := by
        rw [removeMarker, hl]
        simp [hf]
      rw [List.any_eq_true] at hl
      obtain ⟨a, ha, haid⟩ := hl
      have hlen : (s.loadVectors.eraseP (fun l => l.id == id)).length
          = s.loadVectors.length - 1 := List.length_eraseP_of_mem ha haid
      have hpos : 0 < s.loadVectors.length := List.length_pos_of_mem ha
      have hl2 : ((s.loadVectors.eraseP (fun l => l.id == id)).any
          (fun l => l.id == id)) = false :=
        any_eraseP_eq_false _ _ hcl
      have hf2 : s.fixedSupports.any (fun m => m.id == id) = false := by
        simpa using hf
      refine ⟨?_, ?_, ?_, ?_, ?_, ?_⟩
      · rw [hstep, markerIds, markerIds]
        simp only [List.length_append, List.length_map, hlen]
        omega
      · rw [hstep, hasMarker]
        simp only [hf2, hl2]
        simp
      · intro m hm
        rw [hstep] at hm
        exact hm
      · intro l hlmem
        rw [hstep] at hlmem
        exact (List.eraseP_sublist _).mem hlmem
      · intro m hm _
        rw [hstep]
        exact hm
      · intro l hlmem hne
        rw [hstep]
        simp only []
        rw [List.mem_eraseP_of_neg (by simp [hne])]
        exact hlmem

/-- C8 witness: the theorem applied at a concrete two-marker store, removing
    the id of the fixed support. -/
theorem C8_witness :
    (markerIds ⟨Mode.fixed, 2, [fs0], [lv0]⟩).Nodup
    ∧ removeMarker (removeMarker ⟨Mode.fixed, 2, [fs0], [lv0]⟩ "a") "a"
      = removeMarker ⟨Mode.fixed, 2, [fs0], [lv0]⟩ "a" :=
  ⟨by decide, (C8_removeMarker_idempotent ⟨Mode.fixed, 2, [fs0], [lv0]⟩ "a"
      (by decide)).2.1⟩

/-- C9: the add operations store independent copies of the caller vectors.
    In the heap model, addFixedSupport and addLoadVector append one new
    marker whose vector cells are fresh clones, so that overwriting any
    pre-existing cell — in particular the caller-supplied position, normal
    or direction objects — afterwards leaves the values read through the
    stored marker identical to the values the caller cells held at insert
    time. -/
theorem C9_clone_on_insert (st : HeapState) (pr nr : Nat)
    (hp : pr < st.heap.length) (hn : nr < st.heap.length)
    (r : Nat) (hr : r < st.heap.length) (w : Vec3) (mag : Option ℚ) :
    (∃ m : FixedSupportRef,
        (addFixedSupportRef st pr nr).1.fixedSupports = st.fixedSupports ++ [m]
        ∧ heapGet (heapSet (addFixedSupportRef st pr nr).1.heap r w) m.position
            = heapGet st.heap pr
        ∧ heapGet (heapSet (addFixedSupportRef st pr nr).1.heap r w) m.normal
            = heapGet st.heap nr)
    ∧ (∃ l : LoadVectorRef,
        (addLoadVectorRef st pr nr mag).1.loadVectors = st.loadVectors ++ [l]
        ∧ heapGet (heapSet (addLoadVectorRef st pr nr mag).1.heap r w) l.position
            = heapGet st.heap pr
        ∧ heapGet (heapSet (addLoadVectorRef st pr nr mag).1.heap r w) l.direction
            = heapGet st.heap nr) := by
  have hr1 : r ≠ st.heap.length := Nat.ne_of_lt hr
  have hr2 : r ≠ (st.heap ++ [heapGet st.heap pr]).length := by
    rw [List.length_append]
    simp only [List.length_singleton]
    omega
  have hpos : ∀ second : Vec3,
      heapGet ((st.heap ++ [heapGet st.heap pr]) ++ [second]) st.heap.length
        = heapGet st.heap pr := by
    intro second
    rw [heapGet_append_of_lt (st.heap ++ [heapGet st.heap pr]) [second]
        st.heap.length (by simp)]
    exact heapGet_append_singleton st.heap (heapGet st.heap pr)
  have hnorm :
      heapGet ((st.heap ++ [heapGet st.heap pr])
          ++ [heapGet (st.heap ++ [heapGet st.heap pr]) nr])
        (st.heap ++ [heapGet st.heap pr]).length
        = heapGet st.heap nr := by
    rw [heapGet_append_singleton (st.heap ++ [heapGet st.heap pr])
        (heapGet (st.heap ++ [heapGet st.heap pr]) nr)]
    exact heapGet_append_of_lt st.heap [heapGet st.heap pr] nr hn
  constructor
  · refine ⟨⟨genId st.nextId, st.heap.length,
      (st.heap ++ [heapGet st.heap pr]).length⟩, rfl, ?_, ?_⟩
    · rw [show (addFixedSupportRef st pr nr).1.heap
          = (st.heap ++ [heapGet st.heap pr])
            ++ [heapGet (st.heap ++ [heapGet st.heap pr]) nr] from rfl]
      rw [heapGet_set_of_ne _ r st.heap.length w hr1]
      exact hpos _
    · rw [show (addFixedSupportRef st pr nr).1.heap
          = (st.heap ++ [heapGet st.heap pr])
            ++ [heapGet (st.heap ++ [heapGet st.heap pr]) nr] from rfl]
      rw [heapGet_set_of_ne _ r (st.heap ++ [heapGet st.heap pr]).length w hr2]
      exact hnorm
  · refine ⟨⟨genId st.nextId, st.heap.length,
      (st.heap ++ [heapGet st.heap pr]).length, mag.getD 1⟩, rfl, ?_, ?_⟩
    · rw [show (addLoadVectorRef st pr nr mag).1.heap
          = (st.heap ++ [heapGet st.heap pr])
            ++ [heapGet (st.heap ++ [heapGet st.heap pr]) nr] from rfl]
      rw [heapGet_set_of_ne _ r st.heap.length w hr1]
      exact hpos _
    · rw [show (addLoadVectorRef st pr nr mag).1.heap
          = (st.heap ++ [heapGet st.heap pr])
            ++ [heapGet (st.heap ++ [heapGet st.heap pr]) nr] from rfl]
      rw [heapGet_set_of_ne _ r (st.heap ++ [heapGet st.heap pr]).length w hr2]
      exact hnorm

/-- C9 witness: the theorem applied at a concrete two-cell heap, with the
    caller overwriting its own position cell after the insert. -/
theorem C9_witness :
    (0 : Nat) < (⟨[⟨1, 2, 3⟩, ⟨4, 5, 6⟩], 0, [], []⟩ : HeapState).heap.length
    ∧ (1 : Nat) < (⟨[⟨1, 2, 3⟩, ⟨4, 5, 6⟩], 0, [], []⟩ : HeapState).heap.length
    ∧ (∃ m : FixedSupportRef,
        (addFixedSupportRef ⟨[⟨1, 2, 3⟩, ⟨4, 5, 6⟩], 0, [], []⟩ 0 1).1.fixedSupports
          = [] ++ [m]
        ∧ heapGet (heapSet (addFixedSupportRef
              ⟨[⟨1, 2, 3⟩, ⟨4, 5, 6⟩], 0, [], []⟩ 0 1).1.heap 0 ⟨9, 9, 9⟩) m.position
            = heapGet [⟨1, 2, 3⟩, ⟨4, 5, 6⟩] 0
        ∧ heapGet (heapSet (addFixedSupportRef
              ⟨[⟨1, 2, 3⟩, ⟨4, 5, 6⟩], 0, [], []⟩ 0 1).1.heap 0 ⟨9, 9, 9⟩) m.normal
            = heapGet [⟨1, 2, 3⟩, ⟨4, 5, 6⟩] 1) :=
  ⟨by decide, by decide,
    (C9_clone_on_insert ⟨[⟨1, 2, 3⟩, ⟨4, 5, 6⟩], 0, [], []⟩ 0 1 (by decide) (by decide)
      0 (by decide) ⟨9, 9, 9⟩ none).1⟩

end Abyss
